import Mathlib

/-!
Verification of the credential lifecycle broker of the t1-api-client
repository.  The definitions below are a shallow embedding of the
JavaScript sources:

* `src/config/index.js`        — the mutable global `config` object,
  modelled by the `Config` structure (only the credential fields and the
  expiry skew matter to the claims; the remaining fields are immutable
  strings that no claim mentions).
* `src/services/authService.js` — `setTokens`, `login`, `refresh`.
* `src/utils/tokenManager.js`   — `isTokenValid`, `ensureValidAccessToken`
  (sequential semantics) and a small-step event system for the
  single-flight slot (concurrent semantics).
* `src/utils/httpClient.js`     — the axios request/response interceptors,
  modelled as `sendOnce` / `httpCallFirst` / `httpCallRetried`.
* `src/auth/auth.service.ts` and `src/auth/token.store.ts` — the TypeScript
  variant (`AuthService.passwordGrant` / `AuthService.refresh` response
  mapping).

JavaScript values are modelled as follows: nullable strings by
`Option String` (with `none` for `null`/`undefined` and JS truthiness
captured by `truthyStr`, under which the empty string is falsy), epoch
milliseconds by `Nat`, thrown errors by `Except`.  Network traffic is an
explicit oracle argument: outcomes the real code receives from axios/fetch
are inputs of the model.
-/

namespace T1

/-- JS truthiness of a nullable string value: `null`/`undefined` and the
empty string are falsy, every other string is truthy. -/
def truthyStr : Option String → Bool
  | none => false
  | some s => !(s == "")

/-- The credential-relevant slice of the mutable `config` object of
`src/config/index.js`: `accessToken` and `refreshToken` start as `null`,
`expiresAt` starts as `0` (epoch ms) and `expirySkewSeconds` is the
configured renewal margin (default 60). -/
structure Config where
  accessToken : Option String
  refreshToken : Option String
  expiresAt : Nat
  expirySkewSeconds : Nat
deriving DecidableEq, Repr

/-- The token-endpoint response body destructured by `authService.js`:
`const { access_token, refresh_token, expires_in } = response.data || {}`.
Each field may be absent. -/
structure TokenPayload where
  access_token : Option String
  refresh_token : Option String
  expires_in : Option Nat
deriving DecidableEq, Repr

/-- An `Error` thrown by `authService.js`, carrying only its message. -/
structure AuthError where
  message : String
deriving DecidableEq, Repr

/-- Embedding of `setTokens` (`src/services/authService.js`):

    const skewMs = (config.expirySkewSeconds || 60) * 1000;
    const expiresAt = nowMs + Math.max(0, (payload.expires_in || 0) * 1000 - skewMs);
    config.accessToken = payload.access_token;
    if (payload.refresh_token) { config.refreshToken = payload.refresh_token; }
    config.expiresAt = expiresAt;

`Nat` subtraction is truncated, which is exactly `Math.max(0, a - b)`. -/
def setTokens (cfg : Config) (nowMs : Nat) (payload : TokenPayload) : Config :=
  let skewSec := if cfg.expirySkewSeconds = 0 then 60 else cfg.expirySkewSeconds
  { cfg with
    accessToken := payload.access_token
    refreshToken :=
      if truthyStr payload.refresh_token then payload.refresh_token else cfg.refreshToken
    expiresAt := nowMs + ((payload.expires_in.getD 0) * 1000 - skewSec * 1000) }

/-- Embedding of `isTokenValid` (`src/utils/tokenManager.js`):
`Boolean(config.accessToken) && Date.now() < (config.expiresAt || 0)`. -/
def isTokenValid (cfg : Config) (now : Nat) : Bool :=
  truthyStr cfg.accessToken && decide (now < cfg.expiresAt)

/-- Outcome of one `axios.post` to the token endpoint, as observed by the
`catch` blocks of `authService.js`: either a response body, or an error
carrying an optional server `error_description` and an optional
`error.message`. -/
inductive HttpResult where
  | ok (data : TokenPayload)
  | err (errorDescription : Option String) (message : Option String)
deriving DecidableEq, Repr

/-- JS `a || b` on a nullable string against a string default. -/
def orDefault (a : Option String) (b : String) : String :=
  if truthyStr a then a.getD "" else b

/-- Embedding of `login` (`src/services/authService.js`).  On success it
destructures the body, persists via `setTokens` and returns `access_token`
(which the source never checks, so it may be absent); on failure it throws
`(errResp.data && errResp.data.error_description) || error.message ||
'Error de autenticación'`.  The returned `Config` is the state of the
mutable `config` object afterwards. -/
def login (cfg : Config) (nowMs : Nat) (net : HttpResult) :
    Except AuthError (Option String) × Config :=
  match net with
  | HttpResult.ok data =>
      (Except.ok data.access_token, setTokens cfg nowMs data)
  | HttpResult.err desc msg =>
      (Except.error ⟨orDefault desc (orDefault msg "Error de autenticación")⟩, cfg)

/-- Embedding of `refresh` (`src/services/authService.js`): throws when no
`config.refreshToken` is present; on a body without a truthy
`access_token` throws `'No se obtuvo access_token en refresh'` (the
message survives the local `catch`); otherwise persists via `setTokens`
and returns the new `access_token`. -/
def refresh (cfg : Config) (nowMs : Nat) (net : HttpResult) :
    Except AuthError (Option String) × Config :=
  if truthyStr cfg.refreshToken then
    match net with
    | HttpResult.ok data =>
        if truthyStr data.access_token then
          (Except.ok data.access_token, setTokens cfg nowMs data)
        else
          (Except.error ⟨"No se obtuvo access_token en refresh"⟩, cfg)
    | HttpResult.err desc msg =>
        (Except.error ⟨orDefault desc (orDefault msg "Error en refresh_token")⟩, cfg)
  else
    (Except.error ⟨"No hay refresh_token disponible"⟩, cfg)

instance {ε α : Type} [DecidableEq ε] [DecidableEq α] : DecidableEq (Except ε α)
  | Except.ok x, Except.ok y =>
      if h : x = y then Decidable.isTrue (h ▸ rfl)
      else Decidable.isFalse (fun hc => h (Except.ok.inj hc))
  | Except.ok _, Except.error _ => Decidable.isFalse (fun hc => Except.noConfusion hc)
  | Except.error _, Except.ok _ => Decidable.isFalse (fun hc => Except.noConfusion hc)
  | Except.error x, Except.error y =>
      if h : x = y then Decidable.isTrue (h ▸ rfl)
      else Decidable.isFalse (fun hc => h (Except.error.inj hc))

/-- Result of one sequential run of `ensureValidAccessToken`
(`src/utils/tokenManager.js`) together with the final state of `config`
and instrumentation recording which of the two `authService` operations
were invoked. -/
structure EnsureOut where
  result : Except AuthError (Option String)
  cfg : Config
  refreshCalled : Bool
  loginCalled : Bool
deriving DecidableEq, Repr

/-- Sequential embedding of `ensureValidAccessToken`
(`src/utils/tokenManager.js`) for runs in which no renewal flight is
already pending (the single-flight slot is empty, so `runSingleFlight fn`
just runs `fn` and clears the slot again; the concurrent slot behaviour is
modelled separately by `applyEvent`).  `rNet`/`lNet` are the network
outcomes the refresh/login `axios.post` would observe. -/
def ensureValidAccessToken (cfg : Config) (now : Nat) (rNet lNet : HttpResult) : EnsureOut :=
  if isTokenValid cfg now then
    ⟨Except.ok cfg.accessToken, cfg, false, false⟩
  else if truthyStr cfg.refreshToken then
    match refresh cfg now rNet with
    | (Except.ok t, cfg2) => ⟨Except.ok t, cfg2, true, false⟩
    | (Except.error _, cfg2) =>
        let l := login cfg2 now lNet
        ⟨l.1, l.2, true, true⟩
  else
    let l := login cfg now lNet
    ⟨l.1, l.2, false, true⟩

/-! ### The TypeScript variant (`src/auth/auth.service.ts`) -/

/-- Token endpoint response as typed in `src/types/auth.types.ts`:
`access_token` and `expires_in` are present, `refresh_token` optional. -/
structure TokenEndpointResponse where
  access_token : String
  refresh_token : Option String
  expires_in : Nat
deriving DecidableEq, Repr

/-- `TokenSet` of `src/auth/token.store.ts`. -/
structure TokenSet where
  accessToken : String
  refreshToken : Option String
  expiresAt : Nat
deriving DecidableEq, Repr

namespace AuthService

/-- Response mapping of `AuthService.passwordGrant`
(`src/auth/auth.service.ts`): `expiresAt: Date.now() + (data.expires_in * 1000)`. -/
def passwordGrantSet (now : Nat) (data : TokenEndpointResponse) : TokenSet :=
  { accessToken := data.access_token
    refreshToken := data.refresh_token
    expiresAt := now + data.expires_in * 1000 }

/-- Response mapping of `AuthService.refresh` (`src/auth/auth.service.ts`):
`refreshToken: data.refresh_token ?? refreshToken`. -/
def refreshSet (now : Nat) (oldRefreshToken : String) (data : TokenEndpointResponse) : TokenSet :=
  { accessToken := data.access_token
    refreshToken := some (data.refresh_token.getD oldRefreshToken)
    expiresAt := now + data.expires_in * 1000 }

end AuthService

/-- Expiry formula stated by the specification (claim C3), written from the
spec words for comparison with the source definitions:
`expiresAt = now + max(0, expires_in*1000 - margin*1000)`. -/
def specClaimedExpiry (now expiresInSec marginSec : Nat) : Nat :=
  now + Int.toNat (max 0 ((expiresInSec : Int) * 1000 - (marginSec : Int) * 1000))

/-! ### Helper lemmas -/

theorem truthyStr_iff (a : Option String) :
    truthyStr a = true ↔ ∃ s, a = some s ∧ s ≠ "" := by
  cases a with
  | none => simp [truthyStr]
  | some s => simp [truthyStr]

theorem refresh_error_cfg {cfg : Config} {now : Nat} {net : HttpResult} {e : AuthError}
    (h : (refresh cfg now net).1 = Except.error e) : (refresh cfg now net).2 = cfg := by
  unfold refresh at h ⊢
  by_cases hrt : truthyStr cfg.refreshToken = true
  · simp only [hrt, if_true] at h ⊢
    cases net with
    | ok data =>
        by_cases hta : truthyStr data.access_token = true
        · simp [hta] at h
        · simp [hta]
    | err desc msg => rfl
  · simp [hrt]

/-! ### Claim theorems (state model and auth service) -/

/-- C4: for every credential state and time, `isTokenValid` is true iff
`accessToken` is a non-empty string and `now < expiresAt`; in particular
it is false at any instant at or after `expiresAt`. -/
theorem c4_token_validity (cfg : Config) (now : Nat) :
    (isTokenValid cfg now = true ↔
      ((∃ a, cfg.accessToken = some a ∧ a ≠ "") ∧ now < cfg.expiresAt))
    ∧ (cfg.expiresAt ≤ now → isTokenValid cfg now = false) := by
  constructor
  · unfold isTokenValid
    rw [Bool.and_eq_true, truthyStr_iff]
    simp
  · intro h
    unfold isTokenValid
    have : ¬ now < cfg.expiresAt := by omega
    simp [this]

theorem c4_token_validity_witness :
    Config.expiresAt ⟨some "x", none, 10, 60⟩ ≤ 20 ∧
      isTokenValid ⟨some "x", none, 10, 60⟩ 20 = false :=
  ⟨by decide, (c4_token_validity ⟨some "x", none, 10, 60⟩ 20).2 (by decide)⟩

/-- C3 counterexample: the TypeScript `AuthService.passwordGrant`
(`src/auth/auth.service.ts`) stores `expiresAt = now + expires_in*1000`
with no margin subtraction, so for `expires_in = 120` the stored expiry is
`120000`, not `now + max(0, expires_in*1000 - margin*1000)` for either the
TS default margin (30 s) or the JS default margin (60 s). -/
theorem c3_counterexample :
    (AuthService.passwordGrantSet 0 ⟨"t", none, 120⟩).expiresAt ≠ specClaimedExpiry 0 120 30
    ∧ (AuthService.passwordGrantSet 0 ⟨"t", none, 120⟩).expiresAt ≠ specClaimedExpiry 0 120 60 := by
  constructor <;> decide

/-- C3 (amended): the JS `setTokens` stores
`expiresAt = now + max(0, expires_in*1000 - margin*1000)` where the
effective margin is the configured skew with `0`/unset defaulting to 60 s,
and this never goes below `now`; the TS `AuthService` instead stores
`expiresAt = now + expires_in*1000` (margin applied only when the cached
set is later checked). -/
theorem c3_expiry_formula (cfg : Config) (now : Nat) (p : TokenPayload)
    (d : TokenEndpointResponse) :
    (setTokens cfg now p).expiresAt
        = specClaimedExpiry now (p.expires_in.getD 0)
            (if cfg.expirySkewSeconds = 0 then 60 else cfg.expirySkewSeconds)
    ∧ now ≤ (setTokens cfg now p).expiresAt
    ∧ (AuthService.passwordGrantSet now d).expiresAt = now + d.expires_in * 1000 := by
  refine ⟨?_, ?_, rfl⟩
  · unfold setTokens specClaimedExpiry
    split <;> simp <;> omega
  · unfold setTokens
    split <;> simp

/-- C8 counterexample: the JS gateway writes the credential store itself —
`login` on a successful response mutates the shared `config` object (via
`setTokens`), so its effects are not limited to the network request and
its returned value. -/
theorem c8_counterexample :
    (login ⟨none, none, 0, 60⟩ 1000 (HttpResult.ok ⟨some "at", some "rt", some 300⟩)).2
      ≠ (⟨none, none, 0, 60⟩ : Config) := by
  decide

/-- C8 (amended): in the JS implementation the gateway is not store-free:
on success `login` itself persists the returned credential set into the
shared `config` store via `setTokens`, and `refresh` reads the stored
refresh token (failing up-front when the store holds none); persistence is
not left to the broker. -/
theorem c8_gateway_touches_store (cfg : Config) (now : Nat) (p : TokenPayload)
    (net : HttpResult) (hrt : truthyStr cfg.refreshToken = false) :
    (login cfg now (HttpResult.ok p)).2 = setTokens cfg now p
    ∧ (refresh cfg now net).1 = Except.error ⟨"No hay refresh_token disponible"⟩ := by
  refine ⟨rfl, ?_⟩
  simp [refresh, hrt]

theorem c8_gateway_touches_store_witness :
    (login ⟨some "t", none, 3, 60⟩ 9 (HttpResult.ok ⟨some "at", none, some 100⟩)).2
        = setTokens ⟨some "t", none, 3, 60⟩ 9 ⟨some "at", none, some 100⟩
    ∧ (refresh ⟨some "t", none, 3, 60⟩ 9 (HttpResult.err none none)).1
        = Except.error ⟨"No hay refresh_token disponible"⟩ :=
  c8_gateway_touches_store ⟨some "t", none, 3, 60⟩ 9 ⟨some "at", none, some 100⟩
    (HttpResult.err none none) (by decide)

/-- C10: persisting a successful token response that lacks a
`refresh_token` field keeps the previously stored refresh token unchanged,
both in the JS `setTokens` and in the TS `AuthService.refresh` mapping. -/
theorem c10_refresh_token_kept (cfg : Config) (now : Nat) (p : TokenPayload)
    (rt : String) (d : TokenEndpointResponse)
    (_hprev : truthyStr cfg.refreshToken = true)
    (hp : p.refresh_token = none) (hd : d.refresh_token = none) :
    (setTokens cfg now p).refreshToken = cfg.refreshToken
    ∧ (AuthService.refreshSet now rt d).refreshToken = some rt := by
  constructor
  · unfold setTokens
    simp [hp, truthyStr]
  · unfold AuthService.refreshSet
    simp [hd]

theorem c10_refresh_token_kept_witness :
    (setTokens ⟨some "a", some "rt", 0, 60⟩ 7 ⟨some "na", none, some 100⟩).refreshToken
        = some "rt"
    ∧ (AuthService.refreshSet 7 "rt2" ⟨"nt", none, 200⟩).refreshToken = some "rt2" :=
  c10_refresh_token_kept ⟨some "a", some "rt", 0, 60⟩ 7 ⟨some "na", none, some 100⟩
    "rt2" ⟨"nt", none, 200⟩ (by decide) rfl rfl

/-- C5: when the cached credential is invalid, `ensureValidAccessToken`
calls `refresh` only if a refresh token exists, falls back to `login` when
`refresh` fails (returning login's result, on the unchanged store), and a
refresh failure never surfaces to the caller by itself. -/
theorem c5_refresh_fallback (cfg : Config) (now : Nat) (rNet lNet : HttpResult)
    (hinv : isTokenValid cfg now = false) :
    ((ensureValidAccessToken cfg now rNet lNet).refreshCalled = true →
        truthyStr cfg.refreshToken = true)
    ∧ (truthyStr cfg.refreshToken = false →
        (ensureValidAccessToken cfg now rNet lNet).refreshCalled = false
        ∧ (ensureValidAccessToken cfg now rNet lNet).result = (login cfg now lNet).1
        ∧ (ensureValidAccessToken cfg now rNet lNet).loginCalled = true)
    ∧ (∀ e, (refresh cfg now rNet).1 = Except.error e →
        (ensureValidAccessToken cfg now rNet lNet).result = (login cfg now lNet).1
        ∧ (ensureValidAccessToken cfg now rNet lNet).loginCalled = true) := by
  refine ⟨?_, ?_, ?_⟩
  · intro h
    by_cases hrt : truthyStr cfg.refreshToken = true
    · exact hrt
    · exfalso
      unfold ensureValidAccessToken at h
      simp [hinv, hrt] at h
  · intro hrt
    unfold ensureValidAccessToken
    simp [hinv, hrt]
  · intro e he
    have hcfg := refresh_error_cfg he
    by_cases hrt : truthyStr cfg.refreshToken = true
    · unfold ensureValidAccessToken
      simp only [hinv, hrt, Bool.false_eq_true, if_false, if_true]
      rcases hres : refresh cfg now rNet with ⟨r, cfg2⟩
      have hr : r = Except.error e := by rw [← he, hres]
      have hc2 : cfg2 = cfg := by rw [← hcfg, hres]
      subst hr hc2
      simp
    · unfold ensureValidAccessToken
      simp [hinv, hrt]

theorem c5_refresh_fallback_witness :
    isTokenValid ⟨some "old", some "rt", 0, 60⟩ 5 = false ∧
      (ensureValidAccessToken ⟨some "old", some "rt", 0, 60⟩ 5
          (HttpResult.err (some "bad") none)
          (HttpResult.ok ⟨some "lt", none, some 300⟩)).result
        = (login ⟨some "old", some "rt", 0, 60⟩ 5
            (HttpResult.ok ⟨some "lt", none, some 300⟩)).1 :=
  ⟨by decide,
    ((c5_refresh_fallback ⟨some "old", some "rt", 0, 60⟩ 5
        (HttpResult.err (some "bad") none)
        (HttpResult.ok ⟨some "lt", none, some 300⟩) (by decide)).2.2
      ⟨"bad"⟩ (by decide)).1⟩

/-! ### TransportClient (`src/utils/httpClient.js`)

One outbound call through the axios instance: the request interceptor
obtains a token via `ensureValidAccessToken` and attaches it; the response
interceptor unwraps `response.data`, normalizes non-401 failures and, on a
first 401, renews and re-dispatches the original request exactly once
(guarded by `_retry`).  The server is an oracle mapping the dispatch
attempt index to its response; `authNet` is an oracle giving the network
outcomes seen by the k-th `ensureValidAccessToken` invocation. -/

/-- What the server answers to one dispatched attempt. -/
inductive ServerResp where
  | success (data : String)
  | httpError (status : Nat) (bodyMessage : Option String)
  | networkError (message : Option String)
deriving DecidableEq, Repr

/-- The normalized `{status, message}` rejection shape of
`src/utils/httpClient.js` (`status` is `undefined` for errors without a
response). -/
structure ApiError where
  status : Option Nat
  message : String
deriving DecidableEq, Repr

/-- State threaded through one outbound call: the shared `config`, how
many times `ensureValidAccessToken` has been invoked, and the
Authorization tokens of the dispatched attempts, in order. -/
structure CallState where
  cfg : Config
  ensureCalls : Nat
  sent : List (Option String)
deriving DecidableEq, Repr

/-- The `error.message` axios synthesizes for a non-2xx response. -/
def axiosStatusMessage (st : Nat) : String :=
  "Request failed with status code " ++ toString st

/-- What reaches the response interceptor's rejection handler: either the
unwrapped success, or an error carrying an optional
`(response.status, response.data.message)` and an optional
`error.message`. -/
inductive SendOutcome where
  | ok (data : String)
  | err (response : Option (Nat × Option String)) (message : Option String)
deriving DecidableEq, Repr

/-- One invocation of `ensureValidAccessToken` from the http client,
consuming the next auth network oracle entry and updating `config`. -/
def callEnsure (authNet : Nat → HttpResult × HttpResult) (now : Nat) (s : CallState) :
    Except AuthError (Option String) × CallState :=
  let out := ensureValidAccessToken s.cfg now (authNet s.ensureCalls).1 (authNet s.ensureCalls).2
  (out.result, ⟨out.cfg, s.ensureCalls + 1, s.sent⟩)

/-- The request interceptor plus the network send of one dispatch: obtain
a token (a thrown `AuthError` reaches the response handler as an error
with no `response`), set `Authorization` and dispatch; the server's answer
for this attempt is `server` applied to the number of previous dispatches. -/
def sendOnce (server : Nat → ServerResp) (authNet : Nat → HttpResult × HttpResult)
    (now : Nat) (s : CallState) : SendOutcome × CallState :=
  match callEnsure authNet now s with
  | (Except.error e, s1) => (SendOutcome.err none (some e.message), s1)
  | (Except.ok tok, s1) =>
      let s2 : CallState := ⟨s1.cfg, s1.ensureCalls, s1.sent ++ [tok]⟩
      match server s1.sent.length with
      | ServerResp.success d => (SendOutcome.ok d, s2)
      | ServerResp.httpError st body =>
          (SendOutcome.err (some (st, body)) (some (axiosStatusMessage st)), s2)
      | ServerResp.networkError m => (SendOutcome.err none m, s2)

/-- The `!response || response.status !== 401` test of the response
interceptor, negated: a response is present and its status is 401. -/
def statusIs401 : Option (Nat × Option String) → Bool
  | none => false
  | some rp => rp.1 == 401

/-- The non-401 normalization of the response interceptor:
`{status: errResp.status, message: (errResp.data && errResp.data.message)
|| error.message || 'Error desconocido'}`. -/
def normalizeNon401 (response : Option (Nat × Option String)) (message : Option String) :
    ApiError :=
  match response with
  | some rp => ⟨some rp.1, orDefault rp.2 (orDefault message "Error desconocido")⟩
  | none => ⟨none, orDefault message "Error desconocido"⟩

/-- Dispatch of the original request re-sent by the 401 handler: its
`_retry` flag is already set, so a further 401 rejects with
`'No autorizado (reintento fallido).'` and nothing is re-sent. -/
def httpCallRetried (server : Nat → ServerResp) (authNet : Nat → HttpResult × HttpResult)
    (now : Nat) (s : CallState) : Except ApiError String × CallState :=
  match sendOnce server authNet now s with
  | (SendOutcome.ok d, s1) => (Except.ok d, s1)
  | (SendOutcome.err resp msg, s1) =>
      if statusIs401 resp then
        (Except.error ⟨some 401, "No autorizado (reintento fallido)."⟩, s1)
      else
        (Except.error (normalizeNon401 resp msg), s1)

/-- A fresh outbound call (`_retry` unset).  On a first 401 the handler
sets `_retry`, invokes `ensureValidAccessToken` and re-dispatches the
original request through the full interceptor chain; the surrounding
`try`/`catch` converts any failure of that block — renewal failure or any
rejection of the retried dispatch — into
`'No autorizado (no se pudo renovar el token).'`. -/
def httpCallFirst (server : Nat → ServerResp) (authNet : Nat → HttpResult × HttpResult)
    (now : Nat) (s : CallState) : Except ApiError String × CallState :=
  match sendOnce server authNet now s with
  | (SendOutcome.ok d, s1) => (Except.ok d, s1)
  | (SendOutcome.err resp msg, s1) =>
      if statusIs401 resp then
        match callEnsure authNet now s1 with
        | (Except.error _, s2) =>
            (Except.error ⟨some 401, "No autorizado (no se pudo renovar el token)."⟩, s2)
        | (Except.ok _, s2) =>
            match httpCallRetried server authNet now s2 with
            | (Except.ok d, s3) => (Except.ok d, s3)
            | (Except.error _, s3) =>
                (Except.error ⟨some 401, "No autorizado (no se pudo renovar el token)."⟩, s3)
      else
        (Except.error (normalizeNon401 resp msg), s1)

/-! ### Helper lemmas for the call model -/

theorem callEnsure_sent (a : Nat → HttpResult × HttpResult) (now : Nat) (s : CallState) :
    ((callEnsure a now s).2).sent = s.sent := rfl

theorem sendOnce_sent_le (srv : Nat → ServerResp) (a : Nat → HttpResult × HttpResult)
    (now : Nat) (s : CallState) :
    ((sendOnce srv a now s).2).sent.length ≤ s.sent.length + 1 := by
  unfold sendOnce
  split
  · rename_i e s1 heq
    have hs1 : s1.sent = s.sent := by
      have h0 := callEnsure_sent a now s
      rw [heq] at h0
      exact h0
    simp [hs1]
  · rename_i tok s1 heq
    have hs1 : s1.sent = s.sent := by
      have h0 := callEnsure_sent a now s
      rw [heq] at h0
      exact h0
    split <;> simp [hs1]

theorem httpCallRetried_sent_le (srv : Nat → ServerResp) (a : Nat → HttpResult × HttpResult)
    (now : Nat) (s : CallState) :
    ((httpCallRetried srv a now s).2).sent.length ≤ s.sent.length + 1 := by
  unfold httpCallRetried
  split
  · rename_i d s1 heq
    have h1 : s1.sent.length ≤ s.sent.length + 1 := by
      have h0 := sendOnce_sent_le srv a now s
      rw [heq] at h0
      exact h0
    simpa using h1
  · rename_i resp msg s1 heq
    have h1 : s1.sent.length ≤ s.sent.length + 1 := by
      have h0 := sendOnce_sent_le srv a now s
      rw [heq] at h0
      exact h0
    by_cases h4 : statusIs401 resp = true <;> simp [h4, h1]

theorem httpCallFirst_sent_le (srv : Nat → ServerResp) (a : Nat → HttpResult × HttpResult)
    (now : Nat) (s : CallState) :
    ((httpCallFirst srv a now s).2).sent.length ≤ s.sent.length + 2 := by
  unfold httpCallFirst
  split
  · rename_i d s1 heq
    have h1 : s1.sent.length ≤ s.sent.length + 1 := by
      have h0 := sendOnce_sent_le srv a now s
      rw [heq] at h0
      exact h0
    try dsimp only
    omega
  · rename_i resp msg s1 heq
    have h1 : s1.sent.length ≤ s.sent.length + 1 := by
      have h0 := sendOnce_sent_le srv a now s
      rw [heq] at h0
      exact h0
    by_cases h4 : statusIs401 resp = true
    · simp only [h4, if_true]
      split
      · rename_i e s2 heq2
        have hs2 : s2.sent.length = s1.sent.length := by
          have h0 := callEnsure_sent a now s1
          rw [heq2] at h0
          rw [h0]
        try dsimp only
        omega
      · rename_i tok s2 heq2
        have hs2 : s2.sent.length = s1.sent.length := by
          have h0 := callEnsure_sent a now s1
          rw [heq2] at h0
          rw [h0]
        split
        · rename_i d2 s3 heq3
          have h3 : s3.sent.length ≤ s2.sent.length + 1 := by
            have h0 := httpCallRetried_sent_le srv a now s2
            rw [heq3] at h0
            exact h0
          try dsimp only
          omega
        · rename_i e2 s3 heq3
          have h3 : s3.sent.length ≤ s2.sent.length + 1 := by
            have h0 := httpCallRetried_sent_le srv a now s2
            rw [heq3] at h0
            exact h0
          try dsimp only
          omega
    · simp only [h4, Bool.false_eq_true, if_false]
      try dsimp only
      omega

theorem ensure_of_valid (cfg : Config) (now : Nat) (rNet lNet : HttpResult)
    (h : isTokenValid cfg now = true) :
    ensureValidAccessToken cfg now rNet lNet
      = ⟨Except.ok cfg.accessToken, cfg, false, false⟩ := by
  unfold ensureValidAccessToken
  simp [h]

theorem callEnsure_of_valid (a : Nat → HttpResult × HttpResult) (now : Nat)
    (cfg : Config) (k : Nat) (sent : List (Option String))
    (h : isTokenValid cfg now = true) :
    callEnsure a now ⟨cfg, k, sent⟩ = (Except.ok cfg.accessToken, ⟨cfg, k + 1, sent⟩) := by
  unfold callEnsure
  rw [ensure_of_valid _ _ _ _ h]

/-! ### Claim theorems (transport client) -/

/-- C1 (code evidence): with a cached credential the broker still
considers valid, a first-attempt 401 does NOT lead to an invalidation —
`ensureValidAccessToken` returns the still-cached value and the retry is
dispatched with exactly the access token the server just rejected (no
refresh/login network call is even possible here: the auth oracle fails
every renewal, yet the call succeeds by resending the same token). -/
theorem c1_retry_resends_rejected_token :
    ((httpCallFirst
        (fun i => if i = 0 then ServerResp.httpError 401 (some "expired")
                  else ServerResp.success "ok")
        (fun _ => (HttpResult.err none none, HttpResult.err none none)) 5
        ⟨⟨some "oldTok", some "rt", 1000, 60⟩, 0, []⟩).2).sent
      = [some "oldTok", some "oldTok"]
    ∧ (httpCallFirst
        (fun i => if i = 0 then ServerResp.httpError 401 (some "expired")
                  else ServerResp.success "ok")
        (fun _ => (HttpResult.err none none, HttpResult.err none none)) 5
        ⟨⟨some "oldTok", some "rt", 1000, 60⟩, 0, []⟩).1 = Except.ok "ok" := by
  constructor <;> decide

/-- C7: at most one retry ever occurs — any outbound call dispatches at
most two attempts; and a call answered 401 on both attempts terminates
with a 401 `ApiError` after exactly two dispatches (no third attempt). -/
theorem c7_at_most_one_retry (server : Nat → ServerResp)
    (authNet : Nat → HttpResult × HttpResult) (now : Nat) (cfg : Config) :
    ((httpCallFirst server authNet now ⟨cfg, 0, []⟩).2).sent.length ≤ 2
    ∧ (isTokenValid cfg now = true →
        ∀ b0 b1, server 0 = ServerResp.httpError 401 b0 →
          server 1 = ServerResp.httpError 401 b1 →
          (httpCallFirst server authNet now ⟨cfg, 0, []⟩).1
              = Except.error ⟨some 401, "No autorizado (no se pudo renovar el token)."⟩
          ∧ ((httpCallFirst server authNet now ⟨cfg, 0, []⟩).2).sent.length = 2) := by
  constructor
  · simpa using httpCallFirst_sent_le server authNet now ⟨cfg, 0, []⟩
  · intro hv b0 b1 h0 h1
    have e1 : sendOnce server authNet now ⟨cfg, 0, []⟩
        = (SendOutcome.err (some (401, b0)) (some (axiosStatusMessage 401)),
           ⟨cfg, 1, [cfg.accessToken]⟩) := by
      unfold sendOnce
      rw [callEnsure_of_valid _ _ _ _ _ hv]
      simp [h0]
    have e3 : sendOnce server authNet now ⟨cfg, 2, [cfg.accessToken]⟩
        = (SendOutcome.err (some (401, b1)) (some (axiosStatusMessage 401)),
           ⟨cfg, 3, [cfg.accessToken, cfg.accessToken]⟩) := by
      unfold sendOnce
      rw [callEnsure_of_valid _ _ _ _ _ hv]
      simp [h1]
    have e4 : httpCallRetried server authNet now ⟨cfg, 2, [cfg.accessToken]⟩
        = (Except.error ⟨some 401, "No autorizado (reintento fallido)."⟩,
           ⟨cfg, 3, [cfg.accessToken, cfg.accessToken]⟩) := by
      unfold httpCallRetried
      rw [e3]
      simp [statusIs401]
    have e2 : callEnsure authNet now ⟨cfg, 1, [cfg.accessToken]⟩
        = (Except.ok cfg.accessToken, ⟨cfg, 2, [cfg.accessToken]⟩) := by
      rw [callEnsure_of_valid _ _ _ _ _ hv]
    unfold httpCallFirst
    rw [e1]
    simp only [statusIs401, beq_self_eq_true, if_true]
    rw [e2]
    simp [e4]

theorem c7_at_most_one_retry_witness :
    isTokenValid ⟨some "tk", none, 99, 60⟩ 5 = true ∧
      (httpCallFirst
          (fun i => if i = 0 then ServerResp.httpError 401 (some "x")
                    else ServerResp.httpError 401 none)
          (fun _ => (HttpResult.err none none, HttpResult.err none none)) 5
          ⟨⟨some "tk", none, 99, 60⟩, 0, []⟩).1
        = Except.error ⟨some 401, "No autorizado (no se pudo renovar el token)."⟩ :=
  ⟨by decide,
    ((c7_at_most_one_retry
        (fun i => if i = 0 then ServerResp.httpError 401 (some "x")
                  else ServerResp.httpError 401 none)
        (fun _ => (HttpResult.err none none, HttpResult.err none none)) 5
        ⟨some "tk", none, 99, 60⟩).2 (by decide) (some "x") none (by decide) (by decide)).1⟩

/-- C9 counterexample: a call answered 401 on the first attempt and 500
(with a server body message) on the retry surfaces
`{status: 401, message: 'No autorizado (no se pudo renovar el token).'}`,
not an error carrying the non-401 status 500 and its body message — the
outer catch of the 401 handler swallows the normalized 500 rejection. -/
theorem c9_counterexample :
    ((httpCallFirst
        (fun i => if i = 0 then ServerResp.httpError 401 none
                  else ServerResp.httpError 500 (some "Server exploded"))
        (fun _ => (HttpResult.err none none, HttpResult.err none none)) 5
        ⟨⟨some "tk", none, 99, 60⟩, 0, []⟩).1
      = Except.error ⟨some 401, "No autorizado (no se pudo renovar el token)."⟩)
    ∧ ((httpCallFirst
        (fun i => if i = 0 then ServerResp.httpError 401 none
                  else ServerResp.httpError 500 (some "Server exploded"))
        (fun _ => (HttpResult.err none none, HttpResult.err none none)) 5
        ⟨⟨some "tk", none, 99, 60⟩, 0, []⟩).1
      ≠ Except.error ⟨some 500, "Server exploded"⟩) := by
  constructor <;> decide

/-- C9 (amended): every surfaced error is a `{status, message}` object;
for a non-401 error status on a call's FIRST attempt the rejection
carries that numeric status and the server-body message when present, and
no retry occurs (exactly one dispatch).  (A non-401 failure of the
401-driven retry is instead surfaced as a 401 authorization error.) -/
theorem c9_non401_first_attempt (server : Nat → ServerResp)
    (authNet : Nat → HttpResult × HttpResult) (now : Nat) (cfg : Config)
    (st : Nat) (body : Option String) (tok : Option String)
    (hok : (ensureValidAccessToken cfg now (authNet 0).1 (authNet 0).2).result
             = Except.ok tok)
    (hsrv : server 0 = ServerResp.httpError st body)
    (hne : st ≠ 401) :
    (httpCallFirst server authNet now ⟨cfg, 0, []⟩).1
        = Except.error (normalizeNon401 (some (st, body)) (some (axiosStatusMessage st)))
    ∧ ((httpCallFirst server authNet now ⟨cfg, 0, []⟩).2).sent.length = 1
    ∧ (∀ bm, body = some bm → bm ≠ "" →
        normalizeNon401 (some (st, body)) (some (axiosStatusMessage st)) = ⟨some st, bm⟩) := by
  have hce : callEnsure authNet now ⟨cfg, 0, []⟩
      = (Except.ok tok,
         ⟨(ensureValidAccessToken cfg now (authNet 0).1 (authNet 0).2).cfg, 1, []⟩) := by
    have h0 : callEnsure authNet now ⟨cfg, 0, []⟩
        = ((ensureValidAccessToken cfg now (authNet 0).1 (authNet 0).2).result,
           ⟨(ensureValidAccessToken cfg now (authNet 0).1 (authNet 0).2).cfg, 1, []⟩) := rfl
    rw [h0, hok]
  have hso : sendOnce server authNet now ⟨cfg, 0, []⟩
      = (SendOutcome.err (some (st, body)) (some (axiosStatusMessage st)),
         ⟨(ensureValidAccessToken cfg now (authNet 0).1 (authNet 0).2).cfg, 1, [tok]⟩) := by
    unfold sendOnce
    rw [hce]
    simp [hsrv]
  have h401 : statusIs401 (some (st, body)) = false := by
    simp [statusIs401, hne]
  refine ⟨?_, ?_, ?_⟩
  · unfold httpCallFirst
    rw [hso]
    simp [h401]
  · unfold httpCallFirst
    rw [hso]
    simp [h401]
  · intro bm hbm hbm2
    simp [normalizeNon401, orDefault, hbm, truthyStr, hbm2]

theorem c9_non401_first_attempt_witness :
    (httpCallFirst (fun _ => ServerResp.httpError 404 (some "Not Found"))
        (fun _ => (HttpResult.err none none, HttpResult.err none none)) 5
        ⟨⟨some "tk", none, 99, 60⟩, 0, []⟩).1
      = Except.error (normalizeNon401 (some (404, some "Not Found"))
          (some (axiosStatusMessage 404))) :=
  (c9_non401_first_attempt (fun _ => ServerResp.httpError 404 (some "Not Found"))
      (fun _ => (HttpResult.err none none, HttpResult.err none none)) 5
      ⟨some "tk", none, 99, 60⟩ 404 (some "Not Found") (some "tk")
      (by decide) (by decide) (by decide)).1

/-! ### Single-flight concurrency model (`src/utils/tokenManager.js`)

JavaScript is single-threaded: a caller of `ensureValidAccessToken` runs
synchronously from entry through the `refreshInFlight` check and — when
the slot is empty — through the assignment of the new flight promise and
the start of the renewal network request (`runSingleFlight`'s async IIFE
executes up to its first `await` before the assignment completes).  That
whole section is therefore one atomic `enter` event.  A flight's
settlement is the `completeOk`/`completeErr` event: the `finally` clears
`refreshInFlight` before the shared promise settles, and every waiter
then observes the same outcome.  (What a waiter does after a failed
flight — the fallback to `login` — is the sequential code path already
modelled by `ensureValidAccessToken` above.) -/

/-- Where one logical caller of `ensureValidAccessToken` stands. -/
inductive CallerPhase where
  | arrived
  | waiting (flight : Nat)
  | done (tok : Option String)
  | flightFailed
deriving DecidableEq, Repr

/-- Global state of the token manager: the shared `config`, the
`refreshInFlight` slot (holding the id of the pending flight), the kinds
of the renewal flights started so far (`true` = refresh, `false` = login
fallback; its length counts renewal network invocations), how many
flights have settled, and the phase of each logical caller. -/
structure SFState where
  cfg : Config
  slot : Option Nat
  startedKinds : List Bool
  completed : Nat
  callers : List CallerPhase
deriving DecidableEq, Repr

/-- Events of the interleaving semantics. -/
inductive SFEvent where
  | enter (i : Nat)
  | completeOk (p : TokenPayload)
  | completeErr
deriving DecidableEq, Repr

/-- Settle every caller waiting on flight `f` with outcome `r`. -/
def resolveWaiters (f : Nat) (r : CallerPhase) (cs : List CallerPhase) : List CallerPhase :=
  cs.map (fun c =>
    match c with
    | CallerPhase.waiting g => if g = f then r else CallerPhase.waiting g
    | c => c)

/-- One step.  `enter i`: caller `i` runs its synchronous section of
`ensureValidAccessToken` — valid cached token: resolve immediately with
it; otherwise join the pending flight, or (empty slot) start a new one
whose kind is refresh iff `config.refreshToken` is truthy.  `completeOk`:
the pending flight's renewal succeeded — `setTokens` has persisted the
payload (both `refresh` and `login` call it on success), the `finally`
clears the slot, and all waiters resolve with `payload.access_token`.
`completeErr`: the renewal threw — the `finally` still clears the slot
and all waiters observe the rejection.  `none` when the event is not
enabled. -/
def applyEvent (now : Nat) (e : SFEvent) (s : SFState) : Option SFState :=
  match e with
  | SFEvent.enter i =>
      match s.callers.get? i with
      | some CallerPhase.arrived =>
          if isTokenValid s.cfg now then
            some { s with callers := s.callers.set i (CallerPhase.done s.cfg.accessToken) }
          else
            match s.slot with
            | some f => some { s with callers := s.callers.set i (CallerPhase.waiting f) }
            | none =>
                some { s with
                  slot := some s.startedKinds.length
                  startedKinds := s.startedKinds ++ [truthyStr s.cfg.refreshToken]
                  callers := s.callers.set i (CallerPhase.waiting s.startedKinds.length) }
      | _ => none
  | SFEvent.completeOk p =>
      match s.slot with
      | some f =>
          some { s with
            cfg := setTokens s.cfg now p
            slot := none
            completed := s.completed + 1
            callers := resolveWaiters f (CallerPhase.done p.access_token) s.callers }
      | none => none
  | SFEvent.completeErr =>
      match s.slot with
      | some f =>
          some { s with
            slot := none
            completed := s.completed + 1
            callers := resolveWaiters f CallerPhase.flightFailed s.callers }
      | none => none

/-- Run a list of events from a state; `none` if any event is not enabled. -/
def runEvents (now : Nat) (es : List SFEvent) (s : SFState) : Option SFState :=
  match es with
  | [] => some s
  | e :: rest =>
      match applyEvent now e s with
      | some s2 => runEvents now rest s2
      | none => none

/-- Initial state: shared `config` as given, empty slot, no flights, `n`
callers about to call `ensureValidAccessToken`. -/
def initSF (cfg : Config) (n : Nat) : SFState :=
  ⟨cfg, none, [], 0, List.replicate n CallerPhase.arrived⟩

/-! ### Helper lemmas for the single-flight model -/

/-- Slot/flight bookkeeping invariant: the slot is occupied exactly when
one more flight has started than has settled. -/
def flightInv (s : SFState) : Prop :=
  (s.slot = none → s.startedKinds.length = s.completed) ∧
  (∀ f, s.slot = some f → s.startedKinds.length = s.completed + 1)

theorem applyEvent_flightInv {now : Nat} {e : SFEvent} {s s2 : SFState}
    (hinv : flightInv s) (h : applyEvent now e s = some s2) : flightInv s2 := by
  obtain ⟨h1, h2⟩ := hinv
  cases e with
  | enter i =>
      simp only [applyEvent] at h
      cases hc : s.callers.get? i with
      | none => rw [hc] at h; exact absurd h (by simp)
      | some ph =>
          rw [hc] at h
          cases ph with
          | arrived =>
              by_cases hv : isTokenValid s.cfg now = true
              · simp only [hv, if_true] at h
                cases h
                exact ⟨h1, h2⟩
              · simp only [hv, Bool.false_eq_true, if_false] at h
                cases hs : s.slot with
                | some f =>
                    rw [hs] at h
                    cases h
                    refine ⟨fun hn => ?_, fun g hg => ?_⟩
                    · exact absurd hn (by simp)
                    · simpa using h2 f hs
                | none =>
                    rw [hs] at h
                    cases h
                    constructor
                    · intro habs
                      exact absurd habs (by simp)
                    · intro f hf
                      simp only at hf ⊢
                      simp [h1 hs]
          | waiting f => exact absurd h (by simp)
          | done t => exact absurd h (by simp)
          | flightFailed => exact absurd h (by simp)
  | completeOk p =>
      simp only [applyEvent] at h
      cases hs : s.slot with
      | none => rw [hs] at h; exact absurd h (by simp)
      | some f =>
          rw [hs] at h
          cases h
          constructor
          · intro _
            simp [h2 f hs]
          · intro g hg
            exact absurd hg (by simp)
  | completeErr =>
      simp only [applyEvent] at h
      cases hs : s.slot with
      | none => rw [hs] at h; exact absurd h (by simp)
      | some f =>
          rw [hs] at h
          cases h
          constructor
          · intro _
            simp [h2 f hs]
          · intro g hg
            exact absurd hg (by simp)

theorem runEvents_flightInv {now : Nat} {es : List SFEvent} {s t : SFState}
    (hinv : flightInv s) (h : runEvents now es s = some t) : flightInv t := by
  induction es generalizing s with
  | nil =>
      unfold runEvents at h
      cases h
      exact hinv
  | cons e rest ih =>
      unfold runEvents at h
      cases ha : applyEvent now e s with
      | none => rw [ha] at h; exact absurd h (by simp)
      | some s2 =>
          rw [ha] at h
          exact ih (applyEvent_flightInv hinv ha) h

/-- Invariant of the phase in which callers are still entering (no flight
has settled yet), for a fixed shared `config` `cfg0` that is invalid:
`config` is untouched, and either no flight has started (empty slot, all
callers still arriving) or exactly flight `0` is pending (its kind is the
truthiness of the stored refresh token) with every caller arriving or
waiting on it. -/
def entersInv (cfg0 : Config) (s : SFState) : Prop :=
  s.cfg = cfg0 ∧ s.completed = 0 ∧
  ((s.slot = none ∧ s.startedKinds = [] ∧ ∀ c ∈ s.callers, c = CallerPhase.arrived)
   ∨ (s.slot = some 0 ∧ s.startedKinds = [truthyStr cfg0.refreshToken] ∧
      ∀ c ∈ s.callers, c = CallerPhase.arrived ∨ c = CallerPhase.waiting 0))

theorem entersStep {cfg0 : Config} {now : Nat} (hval : isTokenValid cfg0 now = false)
    {i : Nat} {s s2 : SFState} (he : entersInv cfg0 s)
    (h : applyEvent now (SFEvent.enter i) s = some s2) :
    entersInv cfg0 s2
    ∧ (∀ j, s.callers.get? j = some (CallerPhase.waiting 0) →
        s2.callers.get? j = some (CallerPhase.waiting 0))
    ∧ s2.callers.get? i = some (CallerPhase.waiting 0) := by
  obtain ⟨hcfg, hcomp, hcase⟩ := he
  simp only [applyEvent] at h
  cases hc : s.callers.get? i with
  | none => rw [hc] at h; exact absurd h (by simp)
  | some ph =>
      rw [hc] at h
      cases ph with
      | waiting f => exact absurd h (by simp)
      | done t => exact absurd h (by simp)
      | flightFailed => exact absurd h (by simp)
      | arrived =>
          obtain ⟨hlt, _⟩ := List.get?_eq_some.mp hc
          have hv : isTokenValid s.cfg now = false := by rw [hcfg]; exact hval
          simp only [hv, Bool.false_eq_true, if_false] at h
          rcases hcase with ⟨hs, hsk, hall⟩ | ⟨hs, hsk, hall⟩
          · -- empty slot: caller i starts flight 0
            rw [hs] at h
            cases h
            refine ⟨⟨hcfg, hcomp, Or.inr ⟨?_, ?_, ?_⟩⟩, ?_, ?_⟩
            · show some s.startedKinds.length = some 0
              rw [hsk]
              rfl
            · show s.startedKinds ++ [truthyStr s.cfg.refreshToken]
                  = [truthyStr cfg0.refreshToken]
              rw [hsk, hcfg]
              rfl
            · intro c hcmem
              rcases List.mem_or_eq_of_mem_set hcmem with hmem | hceq
              · left; exact hall c hmem
              · right; rw [hceq, hsk]; rfl
            · intro j hj
              have := hall _ (List.get?_mem hj)
              exact absurd this (by simp)
            · show (s.callers.set i (CallerPhase.waiting s.startedKinds.length)).get? i
                  = some (CallerPhase.waiting 0)
              rw [List.get?_set_eq_of_lt _ hlt, hsk]
              rfl
          · -- flight 0 pending: caller i joins it
            rw [hs] at h
            cases h
            refine ⟨⟨hcfg, hcomp, Or.inr ⟨rfl, hsk, ?_⟩⟩, ?_, ?_⟩
            · intro c hcmem
              rcases List.mem_or_eq_of_mem_set hcmem with hmem | hceq
              · exact hall c hmem
              · right; rw [hceq]
            · intro j hj
              by_cases hji : i = j
              · subst hji
                show (s.callers.set i (CallerPhase.waiting 0)).get? i
                    = some (CallerPhase.waiting 0)
                rw [List.get?_set_eq_of_lt _ hlt]
              · show (s.callers.set i (CallerPhase.waiting 0)).get? j
                    = some (CallerPhase.waiting 0)
                rw [List.get?_set_ne _ _ hji]
                exact hj
            · show (s.callers.set i (CallerPhase.waiting 0)).get? i
                  = some (CallerPhase.waiting 0)
              rw [List.get?_set_eq_of_lt _ hlt]

theorem entersRun {cfg0 : Config} {now : Nat} (hval : isTokenValid cfg0 now = false) :
    ∀ (es : List SFEvent) (s s2 : SFState), entersInv cfg0 s →
      (∀ e ∈ es, ∃ i, e = SFEvent.enter i) →
      runEvents now es s = some s2 →
      entersInv cfg0 s2
      ∧ (∀ j, s.callers.get? j = some (CallerPhase.waiting 0) →
          s2.callers.get? j = some (CallerPhase.waiting 0))
      ∧ (∀ i, SFEvent.enter i ∈ es → s2.callers.get? i = some (CallerPhase.waiting 0)) := by
  intro es
  induction es with
  | nil =>
      intro s s2 he _ hrun
      unfold runEvents at hrun
      cases hrun
      exact ⟨he, fun j h => h, fun i hi => absurd hi (by simp)⟩
  | cons e rest ih =>
      intro s s2 he hall hrun
      obtain ⟨i, rfl⟩ := hall e (by simp)
      unfold runEvents at hrun
      cases ha : applyEvent now (SFEvent.enter i) s with
      | none => rw [ha] at hrun; exact absurd hrun (by simp)
      | some s1 =>
          rw [ha] at hrun
          obtain ⟨he1, hmono1, hi1⟩ := entersStep hval he ha
          obtain ⟨he2, hmono2, hmem2⟩ :=
            ih s1 s2 he1 (fun e2 h2 => hall e2 (by simp [h2])) hrun
          refine ⟨he2, fun j hj => hmono2 j (hmono1 j hj), fun i2 hi2 => ?_⟩
          rcases List.mem_cons.mp hi2 with heq | hmem
          · have hii : i2 = i := SFEvent.enter.inj heq
            subst hii
            exact hmono2 i2 hi1
          · exact hmem2 i2 hmem

theorem runEvents_append (now : Nat) (as bs : List SFEvent) (s : SFState) :
    runEvents now (as ++ bs) s
      = match runEvents now as s with
        | some t => runEvents now bs t
        | none => none := by
  induction as generalizing s with
  | nil => rfl
  | cons e rest ih =>
      simp only [List.cons_append, runEvents]
      cases ha : applyEvent now e s with
      | none =>
          try rw [ha]
          rfl
      | some s1 =>
          try rw [ha]
          exact ih s1

/-- C2: for N ≥ 1 concurrent callers of `ensureValidAccessToken` that all
observe an expired/absent credential while a refresh token is stored and
the refresh succeeds (their synchronous entry sections all run before the
pending flight settles), exactly one renewal network invocation occurs —
a refresh, never N — and all N callers resolve with the same new access
token; moreover, along any event sequence whatsoever, at most one renewal
flight is outstanding at any time. -/
theorem c2_single_flight (cfg0 : Config) (now n : Nat) (es : List SFEvent)
    (p : TokenPayload) (s2 : SFState)
    (hn : 1 ≤ n)
    (hval : isTokenValid cfg0 now = false)
    (hrt : truthyStr cfg0.refreshToken = true)
    (hes : ∀ e ∈ es, ∃ i, e = SFEvent.enter i)
    (hcov : ∀ i, i < n → SFEvent.enter i ∈ es)
    (hrun : runEvents now (es ++ [SFEvent.completeOk p]) (initSF cfg0 n) = some s2) :
    s2.startedKinds = [true]
    ∧ (∀ i, i < n → s2.callers.get? i = some (CallerPhase.done p.access_token))
    ∧ (∀ fs t, runEvents now fs (initSF cfg0 n) = some t →
        t.startedKinds.length ≤ t.completed + 1) := by
  rw [runEvents_append] at hrun
  cases h1 : runEvents now es (initSF cfg0 n) with
  | none => rw [h1] at hrun; exact absurd hrun (by simp)
  | some s1 =>
      rw [h1] at hrun
      have hstep : applyEvent now (SFEvent.completeOk p) s1 = some s2 := by
        unfold runEvents at hrun
        cases ha : applyEvent now (SFEvent.completeOk p) s1 with
        | none => rw [ha] at hrun; exact absurd hrun (by simp)
        | some u =>
            rw [ha] at hrun
            unfold runEvents at hrun
            cases hrun
            rfl
      have hinit : entersInv cfg0 (initSF cfg0 n) := by
        refine ⟨rfl, rfl, Or.inl ⟨rfl, rfl, ?_⟩⟩
        intro c hcmem
        exact List.eq_of_mem_replicate hcmem
      obtain ⟨he1, _, hmem⟩ := entersRun hval es (initSF cfg0 n) s1 hinit hes h1
      have h0w : s1.callers.get? 0 = some (CallerPhase.waiting 0) := hmem 0 (hcov 0 hn)
      obtain ⟨hcfg1, hcomp1, hcase1⟩ := he1
      rcases hcase1 with ⟨hs1, hsk1, hall1⟩ | ⟨hs1, hsk1, hall1⟩
      · exact absurd (hall1 _ (List.get?_mem h0w)) (by simp)
      · simp only [applyEvent] at hstep
        rw [hs1] at hstep
        cases hstep
        refine ⟨?_, ?_, ?_⟩
        · show s1.startedKinds = [true]
          rw [hsk1, hrt]
        · intro i hi
          have hiw : s1.callers.get? i = some (CallerPhase.waiting 0) := hmem i (hcov i hi)
          show (resolveWaiters 0 (CallerPhase.done p.access_token) s1.callers).get? i
              = some (CallerPhase.done p.access_token)
          unfold resolveWaiters
          rw [List.get?_map, hiw]
          rfl
        · intro fs t hrunf
          have hfi : flightInv (initSF cfg0 n) := by
            constructor
            · intro _; rfl
            · intro f hf; exact absurd hf (by simp [initSF])
          obtain ⟨hf1, hf2⟩ := runEvents_flightInv hfi hrunf
          cases hts : t.slot with
          | none => have := hf1 hts; omega
          | some f => have := hf2 f hts; omega

theorem c2_single_flight_witness :
    runEvents 5 [SFEvent.enter 0, SFEvent.enter 1,
        SFEvent.completeOk ⟨some "newTok", none, some 300⟩]
        (initSF ⟨none, some "rt", 0, 60⟩ 2)
      = some ⟨⟨some "newTok", some "rt", 240005, 60⟩, none, [true], 1,
          [CallerPhase.done (some "newTok"), CallerPhase.done (some "newTok")]⟩
    ∧ SFState.startedKinds ⟨⟨some "newTok", some "rt", 240005, 60⟩, none, [true], 1,
          [CallerPhase.done (some "newTok"), CallerPhase.done (some "newTok")]⟩ = [true]
    ∧ (SFState.callers ⟨⟨some "newTok", some "rt", 240005, 60⟩, none, [true], 1,
          [CallerPhase.done (some "newTok"), CallerPhase.done (some "newTok")]⟩).get? 0
        = some (CallerPhase.done (some "newTok"))
    ∧ (SFState.callers ⟨⟨some "newTok", some "rt", 240005, 60⟩, none, [true], 1,
          [CallerPhase.done (some "newTok"), CallerPhase.done (some "newTok")]⟩).get? 1
        = some (CallerPhase.done (some "newTok")) := by
  have hmain := c2_single_flight ⟨none, some "rt", 0, 60⟩ 5 2
      [SFEvent.enter 0, SFEvent.enter 1] ⟨some "newTok", none, some 300⟩
      ⟨⟨some "newTok", some "rt", 240005, 60⟩, none, [true], 1,
        [CallerPhase.done (some "newTok"), CallerPhase.done (some "newTok")]⟩
      (by decide) (by decide) (by decide)
      (by
        intro e he
        rcases List.mem_cons.mp he with rfl | he2
        · exact ⟨0, rfl⟩
        · rcases List.mem_cons.mp he2 with rfl | he3
          · exact ⟨1, rfl⟩
          · exact absurd he3 (by simp))
      (by
        intro i hi
        rcases i with _ | _ | i
        · simp
        · simp
        · omega)
      (by decide)
  exact ⟨by decide, hmain.1, hmain.2.1 0 (by decide), hmain.2.1 1 (by decide)⟩

/-- C6: whichever way a pending renewal flight settles — resolving with a
token or rejecting — the single-flight slot is cleared back to empty, and
from any cleared state a subsequent caller with an invalid cached
credential starts a fresh renewal flight (the slot is never left
permanently occupied). -/
theorem c6_slot_cleared (now : Nat) (s s2 : SFState) (p : TokenPayload) :
    ((applyEvent now (SFEvent.completeOk p) s = some s2
        ∨ applyEvent now SFEvent.completeErr s = some s2) → s2.slot = none)
    ∧ (∀ t : SFState, ∀ i : Nat, t.slot = none → isTokenValid t.cfg now = false →
        t.callers.get? i = some CallerPhase.arrived →
        ∃ t2, applyEvent now (SFEvent.enter i) t = some t2
          ∧ t2.slot = some t.startedKinds.length) := by
  constructor
  · intro h
    rcases h with h | h
    · simp only [applyEvent] at h
      cases hs : s.slot with
      | none => rw [hs] at h; exact absurd h (by simp)
      | some f => rw [hs] at h; cases h; rfl
    · simp only [applyEvent] at h
      cases hs : s.slot with
      | none => rw [hs] at h; exact absurd h (by simp)
      | some f => rw [hs] at h; cases h; rfl
  · intro t i hslot hval hget
    refine ⟨{ t with
        slot := some t.startedKinds.length
        startedKinds := t.startedKinds ++ [truthyStr t.cfg.refreshToken]
        callers := t.callers.set i (CallerPhase.waiting t.startedKinds.length) }, ?_, rfl⟩
    simp only [applyEvent]
    rw [hget]
    simp [hval, hslot]

theorem c6_slot_cleared_witness :
    applyEvent 5 (SFEvent.completeOk ⟨some "t", none, some 300⟩)
        ⟨⟨none, some "rt", 0, 60⟩, some 0, [true], 0, [CallerPhase.waiting 0]⟩
      = some ⟨⟨some "t", some "rt", 240005, 60⟩, none, [true], 1,
          [CallerPhase.done (some "t")]⟩
    ∧ SFState.slot ⟨⟨some "t", some "rt", 240005, 60⟩, none, [true], 1,
          [CallerPhase.done (some "t")]⟩ = none :=
  ⟨by decide,
    (c6_slot_cleared 5
        ⟨⟨none, some "rt", 0, 60⟩, some 0, [true], 0, [CallerPhase.waiting 0]⟩
        ⟨⟨some "t", some "rt", 240005, 60⟩, none, [true], 1, [CallerPhase.done (some "t")]⟩
        ⟨some "t", none, some 300⟩).1 (Or.inl (by decide))⟩

end T1
